import Mathlib

/-!
# Verification of gocalm's request-dispatch and caching engine

A shallow embedding of the core of the gocalm library: the cache-key
builder (`getCacheKey`), the cache-aware read paths (`getJSON`,
`getAllJSON`, `cached`), the channel drainer of collection
serialization (`serializeLoop`, `serializeChan`), cache invalidation
(`deleteCache`), content negotiation (`acceptJSON` from json.go), the
error translators (`errorHandler`, `handleError` from helpers.go) and
the top-level dispatcher (`serveHTTP` from calm.go).

Go maps of type `map[string]string` (the "kvpairs") are embedded as
association lists with the Go read semantics (a missing key reads as
the empty string).  External collaborators are embedded as outcome
parameters: the memcache client as a `CacheBehavior` (hit/miss per
key, success/failure per Set and Delete), the backend model as a
`ModelBehavior` (one outcome per CRUD method), and request-body
decoding as a `BodyBehavior`.  JSON marshalling is the given, correct
codec of the system, so a model value is represented directly by its
serialized bytes (a `String`).  The observable actions of a request
(cache operations, model calls, response writes) are recorded in
order as a list of `Event`s, which is the dispatcher's result.
-/

namespace Gocalm

/-- kvpairs: a Go `map[string]string`, embedded as an association list.
Go maps have unique keys; where uniqueness matters theorems assume
`(kv.map Prod.fst).Nodup`. -/
abbrev KV := List (String × String)

/-- Go map read `kvpairs[k]`: the value of the entry named `k`, or the
empty string when the entry is absent (Go's zero value for string). -/
def lookupKV (kv : KV) (k : String) : String :=
  match kv.find? (fun p => p.1 == k) with
  | some p => p.2
  | none => ""

/-- Go map write `kvpairs[k] = v`: replace the entry named `k` in place,
append a new entry when absent. -/
def setKV (kv : KV) (k v : String) : KV :=
  match kv with
  | [] => [(k, v)]
  | p :: t => if p.1 == k then (k, v) :: t else p :: setKV t k v

/-- Removal of every entry named `k` (used only to state the
absent-versus-empty cache-key property). -/
def eraseKV (kv : KV) (k : String) : KV :=
  kv.filter (fun p => p.1 != k)

/-- RESTHandler configuration (calm.go:598-611): resource name, cache
expiration in seconds (0 disables the cache), and the name of the
primary-key parameter. -/
structure RESTHandler where
  name : String
  expiration : Int
  key : String

/-- getCacheKey (calm.go:613-627): starting from `h.Name`, append for
each parameter name in `keys` an underscore followed by the
parameter's value read from kvpairs (empty when absent). -/
def getCacheKey (name : String) (keys : List String) (kv : KV) : String :=
  keys.foldl (fun buf k => buf ++ "_" ++ lookupKV kv k) name

/-- The sorted index of parameter names built by ServeHTTP
(calm.go:836-843): all names present in kvpairs, sorted. -/
def serveKeys (kv : KV) : List String :=
  List.insertionSort (fun a b : String => a ≤ b) (kv.map Prod.fst)

/-- The cache key as the dispatcher computes it for a request with the
given kvpairs: `getCacheKey` applied to the sorted name index derived
from the kvpairs themselves. -/
def requestCacheKey (name : String) (kv : KV) : String :=
  getCacheKey name (serveKeys kv) kv

/-- The query-merge step of ServeHTTP (calm.go:830-835): each URL query
parameter is written into kvpairs, overwriting an existing entry. -/
def mergeQuery (pathParams : KV) (query : KV) : KV :=
  query.foldl (fun kv p => setKV kv p.1 p.2) pathParams

/-- Errors of the second calm.go variant: the sentinels `ErrNotFound`
and `ErrNotImplemented` (calm.go:517-519) and every other error with
its message. -/
inductive MErr where
  | notFound
  | notImplemented
  | other (msg : String)
deriving DecidableEq

/-- The observable actions of one request, in program order: memcache
operations, backend model calls (with success flag for mutations),
and response writes.  `sendMsg s m` is `sendJSONMsg(w, r, s, m)`;
`write b` is a plain `w.Write(b)` (implicit status 200). -/
inductive Event where
  | cacheGet (key : String) (hit : Bool)
  | cacheSet (key : String) (ok : Bool)
  | cacheDelete (key : String) (ok : Bool)
  | modelGet
  | modelGetAll
  | modelPut (ok : Bool)
  | modelPatch (ok : Bool)
  | modelPost (ok : Bool)
  | modelDelete (ok : Bool)
  | sendMsg (status : Nat) (msg : String)
  | write (body : String)
deriving DecidableEq

/-- The memcache client, as outcomes per key: `get` is the hit value
(`none` covers both a miss and a failing Get, which the code treats
alike), `setOk`/`deleteOk` tell whether Set/Delete succeed. -/
structure CacheBehavior where
  get : String → Option String
  setOk : String → Bool
  deleteOk : String → Bool

/-- Outcome of `Model.Get`: an error, a nil value (found nothing), or a
value whose JSON serialization is `b`. -/
inductive GetOutcome where
  | err (e : MErr)
  | nothing
  | value (b : String)
deriving DecidableEq

/-- One item received from a `chan interface{}` returned by
`Model.GetAll`: a domain value (represented by its JSON serialization)
or an error-typed item. -/
inductive Item where
  | val (b : String)
  | err (e : MErr)
deriving DecidableEq

/-- Outcome of `Model.GetAll`: an error, nil, a non-channel value whose
serialization is `b`, a channel of the wrong element type, or a
channel yielding `items` in order and then closing. -/
inductive GetAllOutcome where
  | err (e : MErr)
  | nothing
  | slice (b : String)
  | chanBadType
  | chan (items : List Item)
deriving DecidableEq

/-- Outcome of `json.Unmarshal(b, &i)` plus the
`i.(map[string]interface{})` assertion in the PATCH branch
(calm.go:900-910). -/
inductive UnmarshalOutcome where
  | err (e : MErr)
  | notMap
  | isMap
deriving DecidableEq

/-- The backend model, as one outcome per CRUD method for the single
call the dispatcher may make.  `none` means success for the
error-only methods; `post` yields the new id on success. -/
structure ModelBehavior where
  get : GetOutcome
  getAll : GetAllOutcome
  put : Option MErr
  patch : Option MErr
  post : Except MErr String
  delete : Option MErr

/-- Request-body decoding: `readJSON v r` (json.go:160-173) returning
the read bytes or a decode error, and the PATCH branch's second
unmarshal of those bytes into an untyped map. -/
structure BodyBehavior where
  readJSON : Except MErr String
  unmarshalAny : UnmarshalOutcome

/-- An incoming request: its method, the `Accept` header values, and
its URL query parameters. -/
structure Request where
  method : String
  accepts : List String
  query : KV

/-- The main loop of the channel branch of getAllJSON
(calm.go:726-746): after the opening bracket, pull items in order; an
error-typed item aborts with that error; otherwise append a comma
separator (except before the first item) and the item's
serialization.  Returns the result, the number of items the loop
consumed, and the items it left in the channel. -/
def serializeLoop : List Item → String → Nat → (Except MErr String) × Nat × List Item
  | [], acc, _ => (Except.ok (acc ++ "]"), 0, [])
  | Item.err e :: rest, _, _ => (Except.error e, 1, rest)
  | Item.val b :: rest, acc, i =>
    let r := serializeLoop rest (acc ++ (if i != 0 then "," else "") ++ b) (i + 1)
    (r.1, r.2.1 + 1, r.2.2)

/-- The deferred `for _ = range c {}` (calm.go:717-720): receive until
the channel closes, counting the items consumed. -/
def drainChan : List Item → Nat
  | [] => 0
  | _ :: t => drainChan t + 1

/-- The whole channel branch of getAllJSON: run the serialization loop
starting from `"["`, then let the deferred drain consume whatever the
loop left.  Returns the result and the total number of items consumed
from the channel. -/
def serializeChan (items : List Item) : (Except MErr String) × Nat :=
  let r := serializeLoop items "[" 0
  (r.1, r.2.1 + drainChan r.2.2)

/-- The first error-typed item of a channel's item sequence, if any. -/
def firstError : List Item → Option MErr
  | [] => none
  | Item.err e :: _ => some e
  | Item.val _ :: t => firstError t

/-- getJSON (calm.go:630-666): if caching is enabled, try the cache
under the getCacheKey and return a hit verbatim; on a miss call
`Model.Get`; propagate its error; return `(nil, nil)` for a nil
value; otherwise serialize, and if caching is enabled issue a cache
Set whose outcome is ignored.  The Go `([]byte, error)` pair with its
nil-nil case is `Except MErr (Option String)`. -/
def getJSON (h : RESTHandler) (cb : CacheBehavior) (g : GetOutcome)
    (keys : List String) (kv : KV) : (Except MErr (Option String)) × List Event :=
  let cacheKey := getCacheKey h.name keys kv
  match (if h.expiration != 0 then cb.get cacheKey else none) with
  | some v => (Except.ok (some v), [Event.cacheGet cacheKey true])
  | none =>
    let evs := (if h.expiration != 0 then [Event.cacheGet cacheKey false] else [])
      ++ [Event.modelGet]
    match g with
    | GetOutcome.err e => (Except.error e, evs)
    | GetOutcome.nothing => (Except.ok none, evs)
    | GetOutcome.value b =>
      if h.expiration == 0 then (Except.ok (some b), evs)
      else (Except.ok (some b), evs ++ [Event.cacheSet cacheKey (cb.setOk cacheKey)])

/-- getAllJSON (calm.go:669-766): like `getJSON` but on `Model.GetAll`,
whose value may be a slice (serialized directly) or a channel (drained
through `serializeChan`); a channel of the wrong element type is the
error "type must be chan interface\x7b\x7d".  Every cache Set outcome
is ignored. -/
def getAllJSON (h : RESTHandler) (cb : CacheBehavior) (g : GetAllOutcome)
    (keys : List String) (kv : KV) : (Except MErr (Option String)) × List Event :=
  let cacheKey := getCacheKey h.name keys kv
  match (if h.expiration != 0 then cb.get cacheKey else none) with
  | some v => (Except.ok (some v), [Event.cacheGet cacheKey true])
  | none =>
    let evs := (if h.expiration != 0 then [Event.cacheGet cacheKey false] else [])
      ++ [Event.modelGetAll]
    match g with
    | GetAllOutcome.err e => (Except.error e, evs)
    | GetAllOutcome.nothing => (Except.ok none, evs)
    | GetAllOutcome.slice b =>
      if h.expiration == 0 then (Except.ok (some b), evs)
      else (Except.ok (some b), evs ++ [Event.cacheSet cacheKey (cb.setOk cacheKey)])
    | GetAllOutcome.chanBadType =>
      (Except.error (MErr.other "type must be chan interface\x7b\x7d"), evs)
    | GetAllOutcome.chan items =>
      match (serializeChan items).1 with
      | Except.error e => (Except.error e, evs)
      | Except.ok b =>
        if h.expiration == 0 then (Except.ok (some b), evs)
        else (Except.ok (some b), evs ++ [Event.cacheSet cacheKey (cb.setOk cacheKey)])

/-- deleteCache (calm.go:769-789): delete the cache entry under the
request's key; when the primary-key parameter is non-empty, also
delete the "list all" entry, whose key is computed from a copy of
kvpairs with the primary key set to the empty string (same sorted
name index). -/
def deleteCache (h : RESTHandler) (cb : CacheBehavior) (keys : List String)
    (kv : KV) : List Event :=
  let cacheKey := getCacheKey h.name keys kv
  let e1 := Event.cacheDelete cacheKey (cb.deleteOk cacheKey)
  if lookupKV kv h.key == "" then [e1]
  else
    let m := setKV kv h.key ""
    let cacheKey2 := getCacheKey h.name keys m
    [e1, Event.cacheDelete cacheKey2 (cb.deleteOk cacheKey2)]

/-- errorHandler (calm.go:791-800): `ErrNotFound` becomes 404,
`ErrNotImplemented` becomes 501, every other error becomes a 400 with
the error's message. -/
def errorHandler : MErr → Event
  | MErr.notFound => Event.sendMsg 404 "Not found"
  | MErr.notImplemented => Event.sendMsg 501 "Not implemented"
  | MErr.other msg => Event.sendMsg 400 msg

/-- The POST success body `fmt.Fprintf(w, "\x7b\"id\": \"%s\"\x7d", id)`
(calm.go:935). -/
def idBody (newId : String) : String :=
  "\x7b\"id\": \"" ++ newId ++ "\"\x7d"

/-- A character of the regexp class `[[:alnum:]\*]` used by the
media-range pattern in json.go:210. -/
def isMediaChar (c : Char) : Bool :=
  c.isAlphanum || c == '*'

/-- One anchored attempt of the media-range regexp
`([[:alnum:]\*]+)/([[:alnum:]\*]+).*` at the start of `l`: a nonempty
run of class characters, a slash, a nonempty run of class characters
(the trailing `.*` never fails).  Because the class excludes `/`, the
greedy `+` needs no backtracking: the first submatch is exactly the
maximal run before the slash. -/
def matchAt (l : List Char) : Option (String × String) :=
  match l.span isMediaChar with
  | ([], _) => none
  | (r1, '/' :: rest) =>
    match rest.span isMediaChar with
    | ([], _) => none
    | (r2, _) => some (String.mk r1, String.mk r2)
  | (_, _) => none

/-- `mediaRange.FindStringSubmatch` (json.go:184): the leftmost match of
the media-range pattern, scanning start positions left to right. -/
def findMediaRange : List Char → Option (String × String)
  | [] => none
  | c :: t =>
    match matchAt (c :: t) with
    | some r => some r
    | none => findMediaRange t

/-- The LWS fold `lws.ReplaceAllString(accept, "")` (json.go:181,216):
every leftmost match of `[\r\n][ \t]+` is removed, the `+` consuming
the maximal run of blanks.  A one-pass scanner: `inRun` records that
the scanner is inside the blank run of a match being removed. -/
def stripLWS (inRun : Bool) : List Char → List Char
  | [] => []
  | c :: rest =>
    if inRun && (c == ' ' || c == '\t') then
      stripLWS true rest
    else if (c == '\r' || c == '\n')
        && (match rest.head? with
            | some c2 => c2 == ' ' || c2 == '\t'
            | none => false) then
      stripLWS true rest
    else
      c :: stripLWS false rest

/-- The token loop of acceptJSON (json.go:183-196): for each
comma-separated element, a failed regexp match returns false for the
whole header value; a matched element is accepted when its type is
`*` or `application` and its subtype is `*` or `json`; otherwise the
loop continues. -/
def acceptLoop : List String → Bool
  | [] => false
  | element :: rest =>
    match findMediaRange element.data with
    | none => false
    | some (atype, asubtype) =>
      if (atype == "*" || atype == "application")
          && (asubtype == "*" || asubtype == "json") then true
      else acceptLoop rest

/-- `strings.Split(accept, ",")` (json.go:182): split on every comma;
`acc` accumulates the current element's characters in reverse. -/
def splitComma (acc : List Char) : List Char → List String
  | [] => [String.mk acc.reverse]
  | c :: rest =>
    if c == ',' then String.mk acc.reverse :: splitComma [] rest
    else splitComma (c :: acc) rest

/-- acceptJSON (json.go:180-197): fold linear whitespace, split the
header value on commas, and run the token loop. -/
def acceptJSON (accept : String) : Bool :=
  acceptLoop (splitComma [] (stripLWS false accept.data))

/-- The common handling of a read result in the GET branches of
ServeHTTP (calm.go:846-873): an error goes through errorHandler, a
nil byte slice is a 404, and bytes are written to the response. -/
def readResponse (r : (Except MErr (Option String)) × List Event) : List Event :=
  match r with
  | (Except.error e, evs) => evs ++ [errorHandler e]
  | (Except.ok none, evs) => evs ++ [Event.sendMsg 404 "Not found"]
  | (Except.ok (some b), evs) => evs ++ [Event.write b]

/-- ServeHTTP (calm.go:802-954), the second calm.go variant, as a
function from the request, the path parameters, and the behavior of
the external collaborators to the ordered list of observable events.
The top-level recover is not an event source: no embedded branch
panics. -/
def serveHTTP (h : RESTHandler) (cb : CacheBehavior) (mb : ModelBehavior)
    (body : BodyBehavior) (req : Request) (pathParams : KV) : List Event :=
  let accept_json := req.accepts.isEmpty || req.accepts.any acceptJSON
  if !accept_json then
    [Event.sendMsg 406 "Supported Content-Type: application/json"]
  else
    let kvpairs := mergeQuery pathParams req.query
    let keys := serveKeys kvpairs
    let key := lookupKV kvpairs h.key
    if req.method == "GET" && key != "" then
      readResponse (getJSON h cb mb.get keys kvpairs)
    else if req.method == "GET" then
      readResponse (getAllJSON h cb mb.getAll keys kvpairs)
    else if req.method == "PUT" && key != "" then
      match body.readJSON with
      | Except.error e => [errorHandler e]
      | Except.ok _ =>
        match mb.put with
        | some e => [Event.modelPut false, errorHandler e]
        | none =>
          Event.modelPut true ::
            ((if h.expiration != 0 then deleteCache h cb keys kvpairs else [])
              ++ [Event.sendMsg 200 "Success"])
    else if req.method == "PUT" then
      [errorHandler MErr.notImplemented]
    else if req.method == "PATCH" && key != "" then
      match body.readJSON with
      | Except.error e => [errorHandler e]
      | Except.ok _ =>
        match body.unmarshalAny with
        | UnmarshalOutcome.err e => [errorHandler e]
        | UnmarshalOutcome.notMap => [Event.sendMsg 400 "Type mismatch"]
        | UnmarshalOutcome.isMap =>
          match mb.patch with
          | some e => [Event.modelPatch false, errorHandler e]
          | none =>
            Event.modelPatch true ::
              ((if h.expiration != 0 then deleteCache h cb keys kvpairs else [])
                ++ [Event.sendMsg 200 "Success"])
    else if req.method == "POST" && key == "" then
      match body.readJSON with
      | Except.error e => [errorHandler e]
      | Except.ok _ =>
        match mb.post with
        | Except.error e => [Event.modelPost false, errorHandler e]
        | Except.ok newId =>
          Event.modelPost true ::
            ((if h.expiration != 0 then deleteCache h cb keys kvpairs else [])
              ++ [Event.write (idBody newId)])
    else if req.method == "DELETE" && key != "" then
      match mb.delete with
      | some e => [Event.modelDelete false, errorHandler e]
      | none =>
        Event.modelDelete true ::
          ((if h.expiration != 0 then deleteCache h cb keys kvpairs else [])
            ++ [Event.sendMsg 200 "Success"])
    else if req.method == "DELETE" then
      [errorHandler MErr.notImplemented]
    else
      [Event.sendMsg 400 ("Unsupported request method: " ++ req.method)]

/-- The memcache value-size ceiling MEMCACHE_VALUE_MAX (calm.go:54). -/
def MEMCACHE_VALUE_MAX : Nat := 1000000

/-- cacheSet of the first calm.go variant (calm.go:205-222): skip the
Set entirely when the value exceeds MEMCACHE_VALUE_MAX; otherwise
issue the Set and ignore its error. -/
def cacheSet (cb : CacheBehavior) (key : String) (value : String) : List Event :=
  if value.length > MEMCACHE_VALUE_MAX then []
  else [Event.cacheSet key (cb.setOk key)]

/-- `cached` of the first calm.go variant (calm.go:225-249): cache hit,
else `Model.Get`; a nil value is `ErrNotFound` here; a value is
serialized, stored through `cacheSet` when caching is enabled, and
returned. -/
def cached (h : RESTHandler) (cb : CacheBehavior) (g : GetOutcome)
    (key : String) : (Except MErr String) × List Event :=
  match (if h.expiration != 0 then cb.get key else none) with
  | some v => (Except.ok v, [Event.cacheGet key true])
  | none =>
    let evs := (if h.expiration != 0 then [Event.cacheGet key false] else [])
      ++ [Event.modelGet]
    match g with
    | GetOutcome.err e => (Except.error e, evs)
    | GetOutcome.nothing => (Except.error MErr.notFound, evs)
    | GetOutcome.value b =>
      if h.expiration == 0 then (Except.ok b, evs)
      else (Except.ok b, evs ++ cacheSet cb key b)

/-- An error reaching `handleError` (helpers.go:69-78): a structured
`HTTPError` (value or pointer, treated alike) carrying a status code
and message, or a plain error carrying only its message. -/
inductive GoError where
  | httpError (statusCode : Nat) (message : String)
  | plain (message : String)
deriving DecidableEq

/-- A serialized error response: the HTTP status line's code, and the
`statusCode` and `message` fields of the JSON body written by
`Error` (helpers.go:61-67). -/
structure HTTPResponse where
  status : Nat
  bodyStatusCode : Nat
  bodyMessage : String
deriving DecidableEq

/-- `Error(w, error, code)` (helpers.go:61-67): write the status code,
then a body `HTTPError\x7bStatusCode: code, Message: error\x7d`. -/
def errorResponse (message : String) (code : Nat) : HTTPResponse :=
  { status := code, bodyStatusCode := code, bodyMessage := message }

/-- handleError (helpers.go:69-78): a structured HTTPError is serialized
with its own status code; any other error becomes a 500 with the
error's message. -/
def handleError : GoError → HTTPResponse
  | GoError.httpError c m => errorResponse m c
  | GoError.plain m => errorResponse m 500

/-- A value recovered by the first calm.go variant's top-level recover
(calm.go:330-344): a structured `*Error`, some other error, or a
non-error panic value (rendered by fmt). -/
inductive PanicValue where
  | structured (statusCode : Nat) (message : String)
  | plainError (message : String)
  | otherValue (rendered : String)
deriving DecidableEq

/-- The first variant's recover translator (calm.go:330-344), as the
(status, message) it sends: a structured error verbatim, anything
else as a 500. -/
def recoverTranslate : PanicValue → Nat × String
  | PanicValue.structured c m => (c, m)
  | PanicValue.plainError m => (500, m)
  | PanicValue.otherValue s => (500, "Error: " ++ s)

/-- Is this event a cache invalidation? -/
def isCacheDelete : Event → Bool
  | Event.cacheDelete _ _ => true
  | _ => false

/-- Is this event any cache operation? -/
def isCacheOp : Event → Bool
  | Event.cacheGet _ _ => true
  | Event.cacheSet _ _ => true
  | Event.cacheDelete _ _ => true
  | _ => false

/-- Is this event a backend model call? -/
def isModelCall : Event → Bool
  | Event.modelGet => true
  | Event.modelGetAll => true
  | Event.modelPut _ => true
  | Event.modelPatch _ => true
  | Event.modelPost _ => true
  | Event.modelDelete _ => true
  | _ => false

/-- Is this event a successful backend mutation? -/
def mutationSucceeded : Event → Bool
  | Event.modelPut true => true
  | Event.modelPatch true => true
  | Event.modelPost true => true
  | Event.modelDelete true => true
  | _ => false

/-- Scan a trace in order: every cache delete must be preceded by a
successful backend mutation (`seen` records whether one has occurred
yet). -/
def invalidationAfterSuccess (seen : Bool) : List Event → Bool
  | [] => true
  | e :: rest =>
    if isCacheDelete e then seen && invalidationAfterSuccess seen rest
    else invalidationAfterSuccess (seen || mutationSucceeded e) rest

/-! ## Lemmas about kvpairs and the cache key -/

theorem lookupKV_nil (k : String) : lookupKV [] k = "" := rfl

theorem lookupKV_cons (p : String × String) (t : KV) (k : String) :
    lookupKV (p :: t) k = if p.1 = k then p.2 else lookupKV t k := by
  by_cases h : p.1 = k
  · rw [if_pos h]
    unfold lookupKV
    rw [List.find?_cons_of_pos (p := fun q : String × String => q.1 == k) _
      (beq_iff_eq.mpr h)]
  · rw [if_neg h]
    unfold lookupKV
    rw [List.find?_cons_of_neg (p := fun q : String × String => q.1 == k) _
      (fun hb => h (beq_iff_eq.mp hb))]

theorem lookupKV_setKV (kv : KV) (k v k' : String) :
    lookupKV (setKV kv k v) k' = if k' = k then v else lookupKV kv k' := by
  induction kv with
  | nil =>
    rw [show setKV [] k v = [(k, v)] from rfl, lookupKV_cons]
    by_cases h : k' = k
    · rw [if_pos h.symm, if_pos h]
    · rw [if_neg (fun hh => h hh.symm), if_neg h, lookupKV_nil]
  | cons p t ih =>
    by_cases hp : p.1 = k
    · rw [show setKV (p :: t) k v = (k, v) :: t by
          simp only [setKV]; rw [if_pos (beq_iff_eq.mpr hp)],
        lookupKV_cons, lookupKV_cons]
      by_cases h : k' = k
      · rw [if_pos h.symm, if_pos h]
      · rw [if_neg (fun hh => h hh.symm), if_neg h,
          if_neg (fun hh => h ((hp.symm.trans hh).symm))]
    · rw [show setKV (p :: t) k v = p :: setKV t k v by
          simp only [setKV]; rw [if_neg (fun hb => hp (beq_iff_eq.mp hb))],
        lookupKV_cons, ih, lookupKV_cons]
      by_cases h : k' = k
      · subst h
        rw [if_neg (fun hh : p.1 = k' => hp hh), if_pos rfl, if_pos rfl]
      · by_cases h2 : p.1 = k' <;> simp [h, h2]

theorem lookupKV_eraseKV (kv : KV) (k k' : String) :
    lookupKV (eraseKV kv k) k' = if k' = k then "" else lookupKV kv k' := by
  induction kv with
  | nil => by_cases h : k' = k <;> simp [eraseKV, lookupKV_nil, h]
  | cons p t ih =>
    by_cases hp : p.1 = k
    · rw [show eraseKV (p :: t) k = eraseKV t k by
          unfold eraseKV
          rw [List.filter_cons, if_neg (by simp [hp])],
        ih]
      by_cases h : k' = k
      · rw [if_pos h, if_pos h]
      · rw [if_neg h, if_neg h, lookupKV_cons,
          if_neg (fun hh => h ((hp.symm.trans hh).symm))]
    · rw [show eraseKV (p :: t) k = p :: eraseKV t k by
          unfold eraseKV
          rw [List.filter_cons, if_pos (by simp [hp])],
        lookupKV_cons, ih, lookupKV_cons]
      by_cases h2 : p.1 = k'
      · have hk : ¬ k' = k := fun hh => hp (h2.trans hh)
        rw [if_pos h2, if_neg hk, if_pos h2]
      · by_cases h : k' = k
        · subst h
          simp [h2]
        · simp [h, h2]

theorem getCacheKey_congr (m1 m2 : KV)
    (hl : ∀ k, lookupKV m1 k = lookupKV m2 k) :
    ∀ (keys : List String) (name : String),
      getCacheKey name keys m1 = getCacheKey name keys m2 := by
  intro keys
  induction keys with
  | nil => intro name; rfl
  | cons k t ih =>
    intro name
    show getCacheKey (name ++ "_" ++ lookupKV m1 k) t m1
        = getCacheKey (name ++ "_" ++ lookupKV m2 k) t m2
    rw [hl k]
    exact ih _

theorem mem_map_fst_of_lookupKV_ne {kv : KV} {k : String}
    (h : lookupKV kv k ≠ "") : k ∈ kv.map Prod.fst := by
  induction kv with
  | nil => exact absurd rfl h
  | cons p t ih =>
    rw [lookupKV_cons] at h
    by_cases hp : p.1 = k
    · simp [hp]
    · simp only [hp, if_false] at h
      simp [ih h]

theorem map_fst_setKV (kv : KV) (k v : String) (hk : k ∈ kv.map Prod.fst) :
    (setKV kv k v).map Prod.fst = kv.map Prod.fst := by
  induction kv with
  | nil => simp at hk
  | cons p t ih =>
    by_cases hp : p.1 = k
    · simp [setKV, hp]
    · have hk' : k ∈ t.map Prod.fst := by
        simp only [List.map_cons, List.mem_cons] at hk
        exact hk.resolve_left (fun hh => hp hh.symm)
      simp [setKV, hp, ih hk']

theorem lookupKV_perm {kv1 kv2 : KV} (hp : kv1.Perm kv2) :
    (kv1.map Prod.fst).Nodup → ∀ k, lookupKV kv1 k = lookupKV kv2 k := by
  induction hp with
  | nil => intro _ _; rfl
  | cons x _ ih =>
    intro hn k
    rw [lookupKV_cons, lookupKV_cons]
    rw [List.map_cons] at hn
    rw [ih (List.nodup_cons.mp hn).2 k]
  | swap x y l =>
    intro hn k
    rw [lookupKV_cons, lookupKV_cons, lookupKV_cons, lookupKV_cons]
    have hxy : y.1 ≠ x.1 := by
      rw [List.map_cons, List.map_cons] at hn
      exact fun hh => (List.nodup_cons.mp hn).1 (hh ▸ List.mem_cons_self _ _)
    by_cases h1 : y.1 = k
    · by_cases h2 : x.1 = k
      · exact absurd (h1.trans h2.symm) hxy
      · simp [h1, h2]
    · by_cases h2 : x.1 = k <;> simp [h1, h2]
  | trans h1 _ ih1 ih2 =>
    intro hn k
    rw [ih1 hn k, ih2 (((h1.map Prod.fst).nodup_iff).mp hn) k]

theorem serveKeys_perm {kv1 kv2 : KV} (hp : kv1.Perm kv2) :
    serveKeys kv1 = serveKeys kv2 := by
  apply List.eq_of_perm_of_sorted
    ((List.perm_insertionSort _ _).trans
      ((hp.map Prod.fst).trans (List.perm_insertionSort _ _).symm))
    (List.sorted_insertionSort _ _) (List.sorted_insertionSort _ _)

/-! ## Lemmas about the channel drainer -/

theorem drainChan_eq_length (l : List Item) : drainChan l = l.length := by
  induction l with
  | nil => rfl
  | cons x t ih => simp [drainChan, ih]

theorem serializeLoop_consumed (items : List Item) (acc : String) (i : Nat) :
    (serializeLoop items acc i).2.1 + (serializeLoop items acc i).2.2.length
      = items.length := by
  induction items generalizing acc i with
  | nil => simp [serializeLoop]
  | cons it rest ih =>
    cases it with
    | err e =>
      simp only [serializeLoop, List.length_cons]
      omega
    | val b =>
      have := ih (acc ++ (if i != 0 then "," else "") ++ b) (i + 1)
      simp only [serializeLoop, List.length_cons]
      omega

theorem serializeLoop_firstError (items : List Item) (acc : String) (i : Nat)
    (e : MErr) (hf : firstError items = some e) :
    (serializeLoop items acc i).1 = Except.error e := by
  induction items generalizing acc i with
  | nil => simp [firstError] at hf
  | cons it rest ih =>
    cases it with
    | err e' =>
      simp only [firstError, Option.some.injEq] at hf
      subst hf
      rfl
    | val b =>
      simp only [firstError] at hf
      exact ih _ _ hf

/-! ## Lemmas about traces -/

theorem invalidationAfterSuccess_true (l : List Event) :
    invalidationAfterSuccess true l = true := by
  induction l with
  | nil => rfl
  | cons e rest ih => simp [invalidationAfterSuccess, ih]

theorem invalidationAfterSuccess_of_no_delete (l : List Event) :
    ∀ seen : Bool, l.all (fun e => !isCacheDelete e) = true →
      invalidationAfterSuccess seen l = true := by
  induction l with
  | nil => intro _ _; rfl
  | cons e rest ih =>
    intro seen h
    rw [List.all_cons, Bool.and_eq_true] at h
    have he : isCacheDelete e = false := by
      cases hh : isCacheDelete e
      · rfl
      · rw [hh] at h; exact absurd h.1 (by decide)
    simp only [invalidationAfterSuccess, he, if_false, Bool.false_eq_true]
    exact ih _ h.2

theorem getJSON_no_delete (h : RESTHandler) (cb : CacheBehavior) (g : GetOutcome)
    (keys : List String) (kv : KV) :
    ((getJSON h cb g keys kv).2).all (fun e => !isCacheDelete e) = true := by
  rcases hc : (if h.expiration != 0 then cb.get (getCacheKey h.name keys kv)
      else none) with _ | v
  · cases g <;> simp only [getJSON, hc] <;> (repeat' split) <;>
      simp [isCacheDelete]
  · simp only [getJSON, hc]
    simp [isCacheDelete]

theorem getAllJSON_no_delete (h : RESTHandler) (cb : CacheBehavior)
    (g : GetAllOutcome) (keys : List String) (kv : KV) :
    ((getAllJSON h cb g keys kv).2).all (fun e => !isCacheDelete e) = true := by
  rcases hc : (if h.expiration != 0 then cb.get (getCacheKey h.name keys kv)
      else none) with _ | v
  · cases g <;> simp only [getAllJSON, hc] <;> (repeat' split) <;>
      simp [isCacheDelete]
  · simp only [getAllJSON, hc]
    simp [isCacheDelete]

theorem errorHandler_no_delete (e : MErr) :
    isCacheDelete (errorHandler e) = false := by
  cases e <;> rfl

theorem isCacheDelete_modelPut (ok : Bool) :
    isCacheDelete (Event.modelPut ok) = false := rfl

theorem isCacheDelete_modelPatch (ok : Bool) :
    isCacheDelete (Event.modelPatch ok) = false := rfl

theorem isCacheDelete_modelPost (ok : Bool) :
    isCacheDelete (Event.modelPost ok) = false := rfl

theorem isCacheDelete_modelDelete (ok : Bool) :
    isCacheDelete (Event.modelDelete ok) = false := rfl

theorem isCacheDelete_sendMsg (s : Nat) (m : String) :
    isCacheDelete (Event.sendMsg s m) = false := rfl

theorem inv_append_no_delete (l1 l2 : List Event) (seen : Bool)
    (h1 : l1.all (fun e => !isCacheDelete e) = true)
    (h2 : l2.all (fun e => !isCacheDelete e) = true) :
    invalidationAfterSuccess seen (l1 ++ l2) = true := by
  apply invalidationAfterSuccess_of_no_delete
  rw [List.all_append, h1, h2]
  rfl

theorem inv_readResponse (r : (Except MErr (Option String)) × List Event)
    (hr : r.2.all (fun e => !isCacheDelete e) = true) :
    invalidationAfterSuccess false (readResponse r) = true := by
  rcases r with ⟨res, evs⟩
  rcases res with e | ob
  · exact inv_append_no_delete _ _ _ hr (by rw [List.all_cons, errorHandler_no_delete]; rfl)
  · rcases ob with _ | b
    · exact inv_append_no_delete _ _ _ hr rfl
    · exact inv_append_no_delete _ _ _ hr rfl

theorem all_no_delete_readResponse (r : (Except MErr (Option String)) × List Event)
    (hr : r.2.all (fun e => !isCacheDelete e) = true) :
    (readResponse r).all (fun e => !isCacheDelete e) = true := by
  rcases r with ⟨res, evs⟩
  rcases res with e | ob
  · rw [readResponse, List.all_append, hr, List.all_cons, errorHandler_no_delete]
    rfl
  · rcases ob with _ | b
    · rw [readResponse, List.all_append, hr]
      rfl
    · rw [readResponse, List.all_append, hr]
      rfl

/-- The exact pair of keys deleteCache deletes for a request whose
primary-key parameter is non-empty: the request's own key and the
request key of the same kvpairs with the primary key blanked. -/
theorem deleteCache_eq_of_key_present (h : RESTHandler) (cb : CacheBehavior)
    (kv : KV) (hk : lookupKV kv h.key ≠ "") :
    deleteCache h cb (serveKeys kv) kv =
      [Event.cacheDelete (requestCacheKey h.name kv)
          (cb.deleteOk (requestCacheKey h.name kv)),
        Event.cacheDelete (requestCacheKey h.name (setKV kv h.key ""))
          (cb.deleteOk (requestCacheKey h.name (setKV kv h.key "")))] := by
  have hmem := mem_map_fst_of_lookupKV_ne hk
  have hkeys : serveKeys (setKV kv h.key "") = serveKeys kv := by
    unfold serveKeys
    rw [map_fst_setKV _ _ _ hmem]
  simp only [deleteCache, requestCacheKey]
  rw [if_neg (fun hb => hk (beq_iff_eq.mp hb)), hkeys]

/-! ## Claim theorems -/

/-- C6: for every resource name and any two kvpairs mappings equal as
sets of (name, value) pairs — permutations of each other, with the
unique names a Go map guarantees — the cache key the dispatcher
computes (sorted name index, then getCacheKey) is identical. -/
theorem cacheKey_deterministic (name : String) (m1 m2 : KV)
    (hn : (m1.map Prod.fst).Nodup) (hp : m1.Perm m2) :
    requestCacheKey name m1 = requestCacheKey name m2 := by
  unfold requestCacheKey
  rw [serveKeys_perm hp]
  exact getCacheKey_congr m1 m2 (lookupKV_perm hp hn) _ _

/-- Witness for C6: the mappings \x7ba:1, b:2\x7d in both insertion
orders produce the same cache key for resource "stuff". -/
theorem cacheKey_deterministic_witness :
    (([("b", "2"), ("a", "1")] : KV).map Prod.fst).Nodup
    ∧ ([("b", "2"), ("a", "1")] : KV).Perm [("a", "1"), ("b", "2")]
    ∧ requestCacheKey "stuff" [("b", "2"), ("a", "1")]
        = requestCacheKey "stuff" [("a", "1"), ("b", "2")] :=
  ⟨by decide, List.Perm.swap ("a", "1") ("b", "2") [],
    cacheKey_deterministic "stuff" _ _ (by decide)
      (List.Perm.swap ("a", "1") ("b", "2") [])⟩

/-- C10: the cache key builder writes only parameter values, never
parameter names, so two mappings with entirely different names and
the same value collide; concretely \x7ba: v\x7d and \x7bb: v\x7d give
the identical key for resource "stuff", and in general any two
one-parameter mappings with the same value collide. -/
theorem cacheKey_not_injective_in_names :
    requestCacheKey "stuff" [("a", "v")] = requestCacheKey "stuff" [("b", "v")]
    ∧ ("a" : String) ≠ "b"
    ∧ (∀ name k1 k2 v : String,
        requestCacheKey name [(k1, v)] = requestCacheKey name [(k2, v)]) := by
  refine ⟨by decide, by decide, ?_⟩
  intro name k1 k2 v
  show getCacheKey name (serveKeys [(k1, v)]) [(k1, v)]
      = getCacheKey name (serveKeys [(k2, v)]) [(k2, v)]
  rw [show serveKeys [(k1, v)] = [k1] from rfl,
    show serveKeys [(k2, v)] = [k2] from rfl]
  show name ++ "_" ++ lookupKV [(k1, v)] k1
      = name ++ "_" ++ lookupKV [(k2, v)] k2
  rw [lookupKV_cons, lookupKV_cons, if_pos rfl, if_pos rfl]

/-- C1 counterexample: through the dispatcher's actual key derivation
(name index built from the kvpairs themselves), a kvpairs with the
primary key entirely absent and one with the primary key present but
empty do NOT give the same cache key: the former contributes no
underscore segment at all ("stuff" versus "stuff_"). -/
theorem collectionKey_absent_ne_empty :
    requestCacheKey "stuff" [] ≠ requestCacheKey "stuff" [("id", "")] := by
  decide

/-- C1 (amended): with the name index held fixed — as deleteCache does,
reusing the mutating request's index — a kvpairs missing a parameter
and the same kvpairs carrying it with the empty-string value produce
the same cache key, because a missing Go map entry reads as "".
Consequently the collection key deleted by a single-item mutation
(primary key non-empty) is exactly the request key of the kvpairs
with the primary key blanked, i.e. it matches a collection GET whose
kvpairs carries the primary-key name with empty value, not one that
lacks the parameter entirely. -/
theorem cacheKey_absent_eq_empty_fixed_keys :
    (∀ (name : String) (keys : List String) (kv : KV) (pk : String),
      getCacheKey name keys (eraseKV kv pk)
        = getCacheKey name keys (setKV kv pk ""))
    ∧ (∀ (h : RESTHandler) (cb : CacheBehavior) (kv : KV),
        lookupKV kv h.key ≠ "" →
        deleteCache h cb (serveKeys kv) kv =
          [Event.cacheDelete (requestCacheKey h.name kv)
              (cb.deleteOk (requestCacheKey h.name kv)),
            Event.cacheDelete (requestCacheKey h.name (setKV kv h.key ""))
              (cb.deleteOk (requestCacheKey h.name (setKV kv h.key "")))]) := by
  constructor
  · intro name keys kv pk
    apply getCacheKey_congr
    intro k
    rw [lookupKV_eraseKV, lookupKV_setKV]
  · exact fun h cb kv hk => deleteCache_eq_of_key_present h cb kv hk

/-- Witness for C1's amended statement: the single-item mutation kvpairs
\x7bid: 5\x7d on resource "stuff" deletes "stuff_5" and then the
collection key "stuff_". -/
theorem cacheKey_absent_eq_empty_fixed_keys_witness :
    lookupKV [("id", "5")] "id" ≠ ""
    ∧ deleteCache ⟨"stuff", 60, "id"⟩
        (CacheBehavior.mk (fun _ => none) (fun _ => true) (fun _ => true))
        (serveKeys [("id", "5")]) [("id", "5")]
        = [Event.cacheDelete "stuff_5" true, Event.cacheDelete "stuff_" true] :=
  ⟨by decide, by
    rw [cacheKey_absent_eq_empty_fixed_keys.2 ⟨"stuff", 60, "id"⟩
      (CacheBehavior.mk (fun _ => none) (fun _ => true) (fun _ => true))
      [("id", "5")] (by decide)]
    decide⟩

/-- C3: when the item sequence of a channel-typed GetAll result contains
an error-typed item, the channel branch of getAllJSON returns the
first such error as its result, and still consumes every item of the
channel (loop consumption plus the deferred drain account for the
whole sequence); through getAllJSON, on a cache miss, that error is
the function's error result. -/
theorem getAllJSON_error_drains (items : List Item) (e : MErr)
    (hf : firstError items = some e) :
    (serializeChan items).1 = Except.error e
    ∧ (serializeChan items).2 = items.length
    ∧ ∀ (h : RESTHandler) (cb : CacheBehavior) (keys : List String) (kv : KV),
        cb.get (getCacheKey h.name keys kv) = none →
        (getAllJSON h cb (GetAllOutcome.chan items) keys kv).1
          = Except.error e := by
  have h1 : (serializeChan items).1 = Except.error e :=
    serializeLoop_firstError items "[" 0 e hf
  have h2 : (serializeChan items).2 = items.length := by
    show (serializeLoop items "[" 0).2.1
        + drainChan (serializeLoop items "[" 0).2.2 = items.length
    rw [drainChan_eq_length]
    exact serializeLoop_consumed items "[" 0
  refine ⟨h1, h2, ?_⟩
  intro h cb keys kv hmiss
  have hcc : (if h.expiration != 0 then cb.get (getCacheKey h.name keys kv)
      else none) = none := by
    split <;> simp [hmiss]
  simp only [getAllJSON, hcc]
  rw [h1]

/-- Witness for C3: a channel yielding two values, an error, then one
more value: the error is returned and all four items are consumed. -/
theorem getAllJSON_error_drains_witness :
    firstError [Item.val "1", Item.val "2", Item.err (MErr.other "boom"),
        Item.val "3"] = some (MErr.other "boom")
    ∧ (serializeChan [Item.val "1", Item.val "2", Item.err (MErr.other "boom"),
        Item.val "3"]).1 = Except.error (MErr.other "boom")
    ∧ (serializeChan [Item.val "1", Item.val "2", Item.err (MErr.other "boom"),
        Item.val "3"]).2 = 4
    ∧ (getAllJSON ⟨"stuff", 60, "id"⟩
        (CacheBehavior.mk (fun _ => none) (fun _ => true) (fun _ => true))
        (GetAllOutcome.chan [Item.val "1", Item.val "2",
          Item.err (MErr.other "boom"), Item.val "3"])
        ["id"] [("id", "")]).1 = Except.error (MErr.other "boom") :=
  ⟨by decide,
    (getAllJSON_error_drains
      [Item.val "1", Item.val "2", Item.err (MErr.other "boom"), Item.val "3"]
      (MErr.other "boom") (by decide)).1,
    by
      rw [(getAllJSON_error_drains
        [Item.val "1", Item.val "2", Item.err (MErr.other "boom"), Item.val "3"]
        (MErr.other "boom") (by decide)).2.1]
      decide,
    (getAllJSON_error_drains
      [Item.val "1", Item.val "2", Item.err (MErr.other "boom"), Item.val "3"]
      (MErr.other "boom") (by decide)).2.2 ⟨"stuff", 60, "id"⟩
      (CacheBehavior.mk (fun _ => none) (fun _ => true) (fun _ => true))
      ["id"] [("id", "")] rfl⟩

/-- C4: on a cache miss with a successful backend read, the freshly
serialized bytes are returned as a successful result for every cache
Set outcome (the behavior `cb`, including its `setOk`, is universally
quantified, so a failing Set cannot change the result), on all three
read paths; and the first variant's cacheSet skips the cache
operation entirely when the value exceeds MEMCACHE_VALUE_MAX. -/
theorem cache_set_failure_not_fatal
    (h : RESTHandler) (cb : CacheBehavior) (keys : List String) (kv : KV)
    (b key : String)
    (hmiss : cb.get (getCacheKey h.name keys kv) = none)
    (hmiss2 : cb.get key = none) :
    (getJSON h cb (GetOutcome.value b) keys kv).1 = Except.ok (some b)
    ∧ (getAllJSON h cb (GetAllOutcome.slice b) keys kv).1 = Except.ok (some b)
    ∧ (cached h cb (GetOutcome.value b) key).1 = Except.ok b
    ∧ (b.length > MEMCACHE_VALUE_MAX → cacheSet cb key b = []) := by
  have hcc : (if h.expiration != 0 then cb.get (getCacheKey h.name keys kv)
      else none) = none := by
    split <;> simp [hmiss]
  have hcc2 : (if h.expiration != 0 then cb.get key else none) = none := by
    split <;> simp [hmiss2]
  refine ⟨?_, ?_, ?_, ?_⟩
  · simp only [getJSON, hcc]
    split <;> rfl
  · simp only [getAllJSON, hcc]
    split <;> rfl
  · simp only [cached, hcc2]
    split <;> rfl
  · intro hb
    unfold cacheSet
    rw [if_pos hb]

/-- Witness for C4: with a cache whose every Set fails, a miss followed
by a successful read still returns the fresh bytes; and a value one
byte over the 1000000-byte ceiling is never offered to the cache. -/
theorem cache_set_failure_not_fatal_witness :
    (CacheBehavior.mk (fun _ => none) (fun _ => false) (fun _ => true)).get
        (getCacheKey "stuff" ["id"] [("id", "5")]) = none
    ∧ (getJSON ⟨"stuff", 60, "id"⟩
        (CacheBehavior.mk (fun _ => none) (fun _ => false) (fun _ => true))
        (GetOutcome.value "V") ["id"] [("id", "5")]).1 = Except.ok (some "V")
    ∧ (cached ⟨"stuff", 60, "id"⟩
        (CacheBehavior.mk (fun _ => none) (fun _ => false) (fun _ => true))
        (GetOutcome.value "V") "stuff_5").1 = Except.ok "V"
    ∧ cacheSet (CacheBehavior.mk (fun _ => none) (fun _ => false) (fun _ => true))
        "stuff_5" (String.mk (List.replicate 1000001 'a')) = [] :=
  ⟨rfl,
    (cache_set_failure_not_fatal ⟨"stuff", 60, "id"⟩
      (CacheBehavior.mk (fun _ => none) (fun _ => false) (fun _ => true))
      ["id"] [("id", "5")] "V" "stuff_5" rfl rfl).1,
    (cache_set_failure_not_fatal ⟨"stuff", 60, "id"⟩
      (CacheBehavior.mk (fun _ => none) (fun _ => false) (fun _ => true))
      ["id"] [("id", "5")] "V" "stuff_5" rfl rfl).2.2.1,
    (cache_set_failure_not_fatal ⟨"stuff", 60, "id"⟩
      (CacheBehavior.mk (fun _ => none) (fun _ => false) (fun _ => true))
      ["id"] [("id", "5")] (String.mk (List.replicate 1000001 'a')) "stuff_5"
      rfl rfl).2.2.2
      (by
        have hlen : (String.mk (List.replicate 1000001 'a')).length = 1000001 :=
          List.length_replicate 1000001 'a'
        show MEMCACHE_VALUE_MAX < (String.mk (List.replicate 1000001 'a')).length
        rw [hlen]
        decide)⟩

/-- C5 counterexample: a malformed media-range token is fatal in
acceptJSON — the value "garbage,application/json", whose first token
fails the media-range regexp, is rejected even though it is followed
by application/json, contradicting the claim that evaluation
continues to the next token. -/
theorem acceptJSON_malformed_rejects :
    acceptJSON "garbage,application/json" = false := by
  decide

/-- C5 (amended): a malformed media-range token makes acceptJSON return
false for the whole Accept value immediately: whenever the regexp
fails on the first element, the token loop yields false regardless of
the remaining tokens, so a malformed token followed by
application/json is rejected, not accepted. -/
theorem acceptJSON_malformed_aborts (element : String) (rest : List String)
    (hm : findMediaRange element.data = none) :
    acceptLoop (element :: rest) = false := by
  unfold acceptLoop
  rw [hm]

/-- Witness for C5's amended statement: "garbage" fails the media-range
regexp and forces rejection despite "application/json" following. -/
theorem acceptJSON_malformed_aborts_witness :
    findMediaRange ("garbage" : String).data = none
    ∧ acceptLoop ["garbage", "application/json"] = false :=
  ⟨by decide,
    acceptJSON_malformed_aborts "garbage" ["application/json"] (by decide)⟩

/-- C8: a request whose Accept header is present and accepts none of
its media ranges as JSON is answered with a single 406 event — a JSON
error message — and its trace contains no backend model call and no
cache operation. -/
theorem reject_unacceptable_before_backend
    (h : RESTHandler) (cb : CacheBehavior) (mb : ModelBehavior)
    (body : BodyBehavior) (req : Request) (pathParams : KV)
    (hne : req.accepts ≠ [])
    (hall : req.accepts.all (fun a => !acceptJSON a) = true) :
    serveHTTP h cb mb body req pathParams
      = [Event.sendMsg 406 "Supported Content-Type: application/json"]
    ∧ (serveHTTP h cb mb body req pathParams).all
        (fun e => !(isModelCall e || isCacheOp e)) = true := by
  have h1 : req.accepts.isEmpty = false := by
    cases hq : req.accepts with
    | nil => exact absurd hq hne
    | cons a t => rfl
  have h2 : req.accepts.any acceptJSON = false := by
    rw [List.any_eq_false]
    intro a ha
    have := List.all_eq_true.mp hall a ha
    simpa using this
  have htrace : serveHTTP h cb mb body req pathParams
      = [Event.sendMsg 406 "Supported Content-Type: application/json"] := by
    unfold serveHTTP
    rw [h1, h2]
    rfl
  exact ⟨htrace, by rw [htrace]; rfl⟩

/-- Witness for C8: `Accept: text/html` yields exactly the 406 event. -/
theorem reject_unacceptable_before_backend_witness :
    (["text/html"] : List String) ≠ []
    ∧ (["text/html"] : List String).all (fun a => !acceptJSON a) = true
    ∧ serveHTTP ⟨"stuff", 60, "id"⟩
        (CacheBehavior.mk (fun _ => none) (fun _ => true) (fun _ => true))
        (ModelBehavior.mk (GetOutcome.value "V") (GetAllOutcome.slice "[]")
          none none (Except.ok "7") none)
        (BodyBehavior.mk (Except.ok "B") UnmarshalOutcome.isMap)
        (Request.mk "GET" ["text/html"] []) [("id", "5")]
      = [Event.sendMsg 406 "Supported Content-Type: application/json"] :=
  ⟨by decide, by decide,
    (reject_unacceptable_before_backend ⟨"stuff", 60, "id"⟩
      (CacheBehavior.mk (fun _ => none) (fun _ => true) (fun _ => true))
      (ModelBehavior.mk (GetOutcome.value "V") (GetAllOutcome.slice "[]")
        none none (Except.ok "7") none)
      (BodyBehavior.mk (Except.ok "B") UnmarshalOutcome.isMap)
      (Request.mk "GET" ["text/html"] []) [("id", "5")]
      (by decide) (by decide)).1⟩

/-- C2: every successful single-item mutation — PUT, PATCH or DELETE
with the primary-key parameter non-empty — with caching enabled emits
exactly the successful model call, then the cache delete of the
single-item key, then the cache delete of the collection key (the
same kvpairs with the primary key blanked), and only then the 200
success response. -/
theorem mutation_invalidates_both_keys
    (h : RESTHandler) (cb : CacheBehavior) (mb : ModelBehavior)
    (body : BodyBehavior) (accepts : List String) (q pp : KV) (b : String)
    (hacc : (accepts.isEmpty || accepts.any acceptJSON) = true)
    (hexp : h.expiration ≠ 0)
    (hkey : lookupKV (mergeQuery pp q) h.key ≠ "") :
    (body.readJSON = Except.ok b → mb.put = none →
      serveHTTP h cb mb body (Request.mk "PUT" accepts q) pp
        = Event.modelPut true ::
            deleteCache h cb (serveKeys (mergeQuery pp q)) (mergeQuery pp q)
            ++ [Event.sendMsg 200 "Success"])
    ∧ (body.readJSON = Except.ok b →
        body.unmarshalAny = UnmarshalOutcome.isMap → mb.patch = none →
        serveHTTP h cb mb body (Request.mk "PATCH" accepts q) pp
          = Event.modelPatch true ::
              deleteCache h cb (serveKeys (mergeQuery pp q)) (mergeQuery pp q)
              ++ [Event.sendMsg 200 "Success"])
    ∧ (mb.delete = none →
        serveHTTP h cb mb body (Request.mk "DELETE" accepts q) pp
          = Event.modelDelete true ::
              deleteCache h cb (serveKeys (mergeQuery pp q)) (mergeQuery pp q)
              ++ [Event.sendMsg 200 "Success"])
    ∧ deleteCache h cb (serveKeys (mergeQuery pp q)) (mergeQuery pp q)
        = [Event.cacheDelete (requestCacheKey h.name (mergeQuery pp q))
            (cb.deleteOk (requestCacheKey h.name (mergeQuery pp q))),
           Event.cacheDelete
             (requestCacheKey h.name (setKV (mergeQuery pp q) h.key ""))
             (cb.deleteOk
               (requestCacheKey h.name (setKV (mergeQuery pp q) h.key "")))] := by
  have hexp2 : (h.expiration == 0) = false := by
    cases hb : h.expiration == 0
    · rfl
    · exact absurd (beq_iff_eq.mp hb) hexp
  have hkv : (lookupKV (mergeQuery pp q) h.key == "") = false := by
    cases hb : lookupKV (mergeQuery pp q) h.key == ""
    · rfl
    · exact absurd (beq_iff_eq.mp hb) hkey
  refine ⟨?_, ?_, ?_, deleteCache_eq_of_key_present h cb _ hkey⟩
  · intro hr hput
    simp only [serveHTTP, hacc, hr, hput, bne, hexp2, hkv,
      Bool.not_false, Bool.not_true]
    rfl
  · intro hr hum hpatch
    simp only [serveHTTP, hacc, hr, hum, hpatch, bne, hexp2, hkv,
      Bool.not_false, Bool.not_true]
    rfl
  · intro hdel
    simp only [serveHTTP, hacc, hdel, bne, hexp2, hkv,
      Bool.not_false, Bool.not_true]
    rfl

/-- Witness for C2: on resource "stuff" with kvpairs \x7bid: 5\x7d, a
successful PUT, PATCH and DELETE each delete "stuff_5" and "stuff_"
before sending the 200 Success message. -/
theorem mutation_invalidates_both_keys_witness :
    ((([] : List String).isEmpty || ([] : List String).any acceptJSON) = true
      ∧ (60 : Int) ≠ 0
      ∧ lookupKV (mergeQuery [("id", "5")] []) "id" ≠ "")
    ∧ serveHTTP ⟨"stuff", 60, "id"⟩
        (CacheBehavior.mk (fun _ => none) (fun _ => true) (fun _ => true))
        (ModelBehavior.mk (GetOutcome.value "V") (GetAllOutcome.slice "[]")
          none none (Except.ok "7") none)
        (BodyBehavior.mk (Except.ok "B") UnmarshalOutcome.isMap)
        (Request.mk "PUT" [] []) [("id", "5")]
      = [Event.modelPut true, Event.cacheDelete "stuff_5" true,
          Event.cacheDelete "stuff_" true, Event.sendMsg 200 "Success"]
    ∧ serveHTTP ⟨"stuff", 60, "id"⟩
        (CacheBehavior.mk (fun _ => none) (fun _ => true) (fun _ => true))
        (ModelBehavior.mk (GetOutcome.value "V") (GetAllOutcome.slice "[]")
          none none (Except.ok "7") none)
        (BodyBehavior.mk (Except.ok "B") UnmarshalOutcome.isMap)
        (Request.mk "DELETE" [] []) [("id", "5")]
      = [Event.modelDelete true, Event.cacheDelete "stuff_5" true,
          Event.cacheDelete "stuff_" true, Event.sendMsg 200 "Success"] :=
  ⟨⟨by decide, by decide, by decide⟩,
    by
      rw [(mutation_invalidates_both_keys ⟨"stuff", 60, "id"⟩
        (CacheBehavior.mk (fun _ => none) (fun _ => true) (fun _ => true))
        (ModelBehavior.mk (GetOutcome.value "V") (GetAllOutcome.slice "[]")
          none none (Except.ok "7") none)
        (BodyBehavior.mk (Except.ok "B") UnmarshalOutcome.isMap)
        [] [] [("id", "5")] "B" (by decide) (by decide) (by decide)).1 rfl rfl]
      decide,
    by
      rw [(mutation_invalidates_both_keys ⟨"stuff", 60, "id"⟩
        (CacheBehavior.mk (fun _ => none) (fun _ => true) (fun _ => true))
        (ModelBehavior.mk (GetOutcome.value "V") (GetAllOutcome.slice "[]")
          none none (Except.ok "7") none)
        (BodyBehavior.mk (Except.ok "B") UnmarshalOutcome.isMap)
        [] [] [("id", "5")] "B" (by decide) (by decide) (by decide)).2.2.1 rfl]
      decide⟩

set_option maxHeartbeats 2000000 in
/-- C7: on every trace the dispatcher can produce, each cache delete is
preceded by a successful backend mutation; and when the backend
mutation fails (PUT, PATCH, POST or DELETE returning an error), the
trace contains no cache delete at all, so existing cache entries are
left untouched. -/
theorem invalidation_only_after_success :
    (∀ (h : RESTHandler) (cb : CacheBehavior) (mb : ModelBehavior)
        (body : BodyBehavior) (req : Request) (pp : KV),
      invalidationAfterSuccess false (serveHTTP h cb mb body req pp) = true)
    ∧ (∀ (h : RESTHandler) (cb : CacheBehavior) (mb : ModelBehavior)
        (body : BodyBehavior) (accepts : List String) (q pp : KV) (e : MErr),
        mb.put = some e →
        (serveHTTP h cb mb body (Request.mk "PUT" accepts q) pp).all
          (fun ev => !isCacheDelete ev) = true)
    ∧ (∀ (h : RESTHandler) (cb : CacheBehavior) (mb : ModelBehavior)
        (body : BodyBehavior) (accepts : List String) (q pp : KV) (e : MErr),
        mb.patch = some e →
        (serveHTTP h cb mb body (Request.mk "PATCH" accepts q) pp).all
          (fun ev => !isCacheDelete ev) = true)
    ∧ (∀ (h : RESTHandler) (cb : CacheBehavior) (mb : ModelBehavior)
        (body : BodyBehavior) (accepts : List String) (q pp : KV) (e : MErr),
        mb.post = Except.error e →
        (serveHTTP h cb mb body (Request.mk "POST" accepts q) pp).all
          (fun ev => !isCacheDelete ev) = true)
    ∧ (∀ (h : RESTHandler) (cb : CacheBehavior) (mb : ModelBehavior)
        (body : BodyBehavior) (accepts : List String) (q pp : KV) (e : MErr),
        mb.delete = some e →
        (serveHTTP h cb mb body (Request.mk "DELETE" accepts q) pp).all
          (fun ev => !isCacheDelete ev) = true) := by
  refine ⟨?_, ?_, ?_, ?_, ?_⟩
  · intro h cb mb body req pp
    simp only [serveHTTP]
    (repeat' split) <;>
      first
        | rfl
        | exact invalidationAfterSuccess_true _
        | exact inv_readResponse _ (getJSON_no_delete _ _ _ _ _)
        | exact inv_readResponse _ (getAllJSON_no_delete _ _ _ _ _)
        | (apply invalidationAfterSuccess_of_no_delete
           simp [errorHandler_no_delete, isCacheDelete_modelPut,
             isCacheDelete_modelPatch, isCacheDelete_modelPost,
             isCacheDelete_modelDelete, isCacheDelete_sendMsg])
  · intro h cb mb body accepts q pp e hput
    simp only [serveHTTP, hput,
      show (("PUT" : String) == "GET") = false from rfl,
      show (("PUT" : String) == "PUT") = true from rfl,
      show (("PUT" : String) == "PATCH") = false from rfl,
      show (("PUT" : String) == "POST") = false from rfl,
      show (("PUT" : String) == "DELETE") = false from rfl,
      Bool.false_and, Bool.true_and]
    (repeat' split) <;>
      first
        | (exact absurd (show (false : Bool) = true by assumption) (by decide))
        | simp [errorHandler_no_delete, isCacheDelete_modelPut,
            isCacheDelete_modelPatch, isCacheDelete_modelPost,
            isCacheDelete_modelDelete, isCacheDelete_sendMsg]
  · intro h cb mb body accepts q pp e hpatch
    simp only [serveHTTP, hpatch,
      show (("PATCH" : String) == "GET") = false from rfl,
      show (("PATCH" : String) == "PUT") = false from rfl,
      show (("PATCH" : String) == "PATCH") = true from rfl,
      show (("PATCH" : String) == "POST") = false from rfl,
      show (("PATCH" : String) == "DELETE") = false from rfl,
      Bool.false_and, Bool.true_and]
    (repeat' split) <;>
      first
        | (exact absurd (show (false : Bool) = true by assumption) (by decide))
        | simp [errorHandler_no_delete, isCacheDelete_modelPut,
            isCacheDelete_modelPatch, isCacheDelete_modelPost,
            isCacheDelete_modelDelete, isCacheDelete_sendMsg]
  · intro h cb mb body accepts q pp e hpost
    simp only [serveHTTP, hpost,
      show (("POST" : String) == "GET") = false from rfl,
      show (("POST" : String) == "PUT") = false from rfl,
      show (("POST" : String) == "PATCH") = false from rfl,
      show (("POST" : String) == "POST") = true from rfl,
      show (("POST" : String) == "DELETE") = false from rfl,
      Bool.false_and, Bool.true_and]
    (repeat' split) <;>
      first
        | (exact absurd (show (false : Bool) = true by assumption) (by decide))
        | simp [errorHandler_no_delete, isCacheDelete_modelPut,
            isCacheDelete_modelPatch, isCacheDelete_modelPost,
            isCacheDelete_modelDelete, isCacheDelete_sendMsg]
  · intro h cb mb body accepts q pp e hdel
    simp only [serveHTTP, hdel,
      show (("DELETE" : String) == "GET") = false from rfl,
      show (("DELETE" : String) == "PUT") = false from rfl,
      show (("DELETE" : String) == "PATCH") = false from rfl,
      show (("DELETE" : String) == "POST") = false from rfl,
      show (("DELETE" : String) == "DELETE") = true from rfl,
      Bool.false_and, Bool.true_and]
    (repeat' split) <;>
      first
        | (exact absurd (show (false : Bool) = true by assumption) (by decide))
        | simp [errorHandler_no_delete, isCacheDelete_modelPut,
            isCacheDelete_modelPatch, isCacheDelete_modelPost,
            isCacheDelete_modelDelete, isCacheDelete_sendMsg]

/-- Witness for C7: a PUT whose backend mutation fails produces a trace
without any cache delete, and a successful PUT's trace passes the
invalidation-after-success scan. -/
theorem invalidation_only_after_success_witness :
    (ModelBehavior.mk (GetOutcome.value "V") (GetAllOutcome.slice "[]")
        (some (MErr.other "db down")) none (Except.ok "7") none).put
      = some (MErr.other "db down")
    ∧ (serveHTTP ⟨"stuff", 60, "id"⟩
        (CacheBehavior.mk (fun _ => none) (fun _ => true) (fun _ => true))
        (ModelBehavior.mk (GetOutcome.value "V") (GetAllOutcome.slice "[]")
          (some (MErr.other "db down")) none (Except.ok "7") none)
        (BodyBehavior.mk (Except.ok "B") UnmarshalOutcome.isMap)
        (Request.mk "PUT" [] []) [("id", "5")]).all
        (fun ev => !isCacheDelete ev) = true
    ∧ invalidationAfterSuccess false
        (serveHTTP ⟨"stuff", 60, "id"⟩
          (CacheBehavior.mk (fun _ => none) (fun _ => true) (fun _ => true))
          (ModelBehavior.mk (GetOutcome.value "V") (GetAllOutcome.slice "[]")
            none none (Except.ok "7") none)
          (BodyBehavior.mk (Except.ok "B") UnmarshalOutcome.isMap)
          (Request.mk "PUT" [] []) [("id", "5")]) = true :=
  ⟨rfl,
    invalidation_only_after_success.2.1 ⟨"stuff", 60, "id"⟩
      (CacheBehavior.mk (fun _ => none) (fun _ => true) (fun _ => true))
      (ModelBehavior.mk (GetOutcome.value "V") (GetAllOutcome.slice "[]")
        (some (MErr.other "db down")) none (Except.ok "7") none)
      (BodyBehavior.mk (Except.ok "B") UnmarshalOutcome.isMap)
      [] [] [("id", "5")] (MErr.other "db down") rfl,
    invalidation_only_after_success.1 ⟨"stuff", 60, "id"⟩
      (CacheBehavior.mk (fun _ => none) (fun _ => true) (fun _ => true))
      (ModelBehavior.mk (GetOutcome.value "V") (GetAllOutcome.slice "[]")
        none none (Except.ok "7") none)
      (BodyBehavior.mk (Except.ok "B") UnmarshalOutcome.isMap)
      (Request.mk "PUT" [] []) [("id", "5")]⟩

/-- C9: the top-level error translator serializes a structured error
with its carried status code as both the HTTP status and the body's
declared statusCode field, and wraps a plain error into a 500 with
its message text; the first variant's recover translator does the
same at the (status, message) level. -/
theorem error_translation (c : Nat) (m : String) :
    handleError (GoError.httpError c m)
      = { status := c, bodyStatusCode := c, bodyMessage := m }
    ∧ (handleError (GoError.httpError c m)).status
      = (handleError (GoError.httpError c m)).bodyStatusCode
    ∧ handleError (GoError.plain m)
      = { status := 500, bodyStatusCode := 500, bodyMessage := m }
    ∧ recoverTranslate (PanicValue.structured c m) = (c, m)
    ∧ recoverTranslate (PanicValue.plainError m) = (500, m) :=
  ⟨rfl, rfl, rfl, rfl, rfl⟩

end Gocalm
